import Mathlib

/-!
Formal model of `world_population_analysis.py`.

The script loads a wide population table (one row per country, one column
per year), joins it with country boundary geometries, runs DBSCAN over the
centroids of populous countries to find hotspots, renders markers colored
from a fixed qualitative palette, and aggregates population by continent
into a time series.

The embedding below translates each relevant fragment of the script into an
executable Lean definition:

* tables are lists of rows; a dataframe cell that may be NaN is `Option Int`;
* Python exceptions (IndexError from palette lookup, the ValueError raised
  by sklearn on an empty sample set, ValueError from `max` on an empty
  sequence) are modelled by `Option`, with `none` as the raised exception;
* geometries are represented by their centroid, a pair of coordinates
  (latitude, longitude) drawn from a linearly ordered commutative ring
  `K` standing for the real coordinate plane, since only centroids reach
  the analysis; concrete instances use integer-valued coordinates, on
  which the ideal arithmetic and the float arithmetic of the script
  agree exactly;
* the continent lookup of `pycountry_convert` (an external library) is a
  parameter `resolve : String → Option String`, where `none` models the
  caught exception of `get_continent`.
-/

/-! ### Small utilities shared by several components -/

/-- ASCII digit test, as used by Python `str.isdigit` on year headers. -/
def isDigitCh (c : Char) : Bool := 48 ≤ c.toNat && c.toNat ≤ 57

/-- Python `col.isdigit()`: nonempty and every character a digit
(lines 39 and 210 of the script). -/
def pyIsdigit (s : String) : Bool := !s.data.isEmpty && s.data.all isDigitCh

/-- Numeric value of a digit character. -/
def digitVal (c : Char) : Nat := c.toNat - 48

/-- Value of a digit string read as a base-10 integer, most significant
digit first: the value Python `int` would return on the same digits. -/
def digitsToNat : List Char → Nat
  | [] => 0
  | c :: t => digitVal c * 10 ^ t.length + digitsToNat t

/-- Numeric reading of a digit-string column header. -/
def strToNat (s : String) : Nat := digitsToNat s.data

/-- Python `max` over a list of strings: lexicographic comparison of the
code-point sequences, `ValueError` (here `none`) on an empty list
(line 40). -/
def pyMaxStr : List String → Option String
  | [] => none
  | x :: xs => some (xs.foldl (fun a b => if a.data < b.data then b else a) x)

/-- The distinct elements of a list; its length is the size of the Python
`set` of the list. -/
def distincts {α : Type} [DecidableEq α] : List α → List α
  | [] => []
  | a :: l => if a ∈ distincts l then distincts l else a :: distincts l

/-- Pandas `Series.sum()` with its default `skipna=True`: null cells are
skipped, the sum of no cells is 0 (line 215). -/
def sumCells (l : List (Option Int)) : Int := (l.filterMap id).sum

/-! ### Most recent year selection (script lines 37 to 43) -/

/-- `year_columns = [col for col in df_temp.columns if col.isdigit()]` then
`RECENT_YEAR = max(year_columns)` (lines 39 and 40).  `none` is the
uncaught ValueError of `max` on an empty sequence. -/
def computeRecentYear (cols : List String) : Option String :=
  pyMaxStr (cols.filter pyIsdigit)

/-- The module-level `RECENT_YEAR` computation: the argument is the header
row of the population CSV when the file exists, `none` when reading it
raised FileNotFoundError, in which case the hardcoded default year string
is used (lines 41 to 43). -/
def RECENT_YEAR : Option (List String) → Option String
  | none => some "2022"
  | some cols => computeRecentYear cols

/-! ### Data model -/

/-- One row of the population table after the first column is renamed to
`country`: the country name plus the cells of the remaining columns, in
column order.  A cell is `none` when the CSV holds NaN. -/
structure PopRow where
  country : String
  cells : List (Option Int)
deriving DecidableEq

/-- The population dataframe: the names of the columns after `country`, the
rows, and the `continent` column that `create_time_series_plot` writes into
the frame (absent, `none`, until that assignment happens). -/
structure PopTable where
  otherCols : List String
  rows : List PopRow
  continentCol : Option (List (Option String))
deriving DecidableEq

/-- One feature of the boundary GeoJSON after renaming `name` to `country`:
the country name and its geometry, represented by the centroid that
`perform_hotspot_analysis` derives from it (latitude, longitude). -/
structure GeoRow (K : Type) where
  country : String
  lat : K
  lng : K
deriving DecidableEq

/-- One row of the merged GeoDataFrame: country, geometry centroid, and the
most recent population (0 after `fillna(0)` when unmatched). -/
structure MergedCountry (K : Type) where
  country : String
  lat : K
  lng : K
  population : Int
deriving DecidableEq

/-- Value of the cell of row `cells` under column `y`, walking the column
names and the cells in parallel: the dataframe column access
`row[y]`. -/
def rowCell : List String → List (Option Int) → String → Option Int
  | [], _, _ => none
  | _, [], _ => none
  | c :: cs, v :: vs, y => if c = y then v else rowCell cs vs y

/-! ### Loader and merger (script lines 46 to 99) -/

/-- The static country-name reconciliation table (lines 76 to 89). -/
def country_name_map : List (String × String) :=
  [("United States", "United States of America"),
   ("Russian Federation", "Russia"),
   ("Egypt, Arab Rep.", "Egypt"),
   ("Hong Kong SAR, China", "Hong Kong"),
   ("Iran, Islamic Rep.", "Iran"),
   ("Macao SAR, China", "Macau"),
   ("Congo, Dem. Rep.", "Democratic Republic of the Congo"),
   ("Congo, Rep.", "Republic of the Congo"),
   ("Venezuela, RB", "Venezuela"),
   ("Yemen, Rep.", "Yemen"),
   ("Korea, Rep.", "South Korea"),
   ("United Kingdom", "United Kingdom")]

/-- Pandas `Series.replace(country_name_map)` on one name: the mapped value
on an exact key match, the name itself otherwise (line 90). -/
def applyMap (s : String) : String :=
  match country_name_map.find? (fun p => p.1 == s) with
  | some p => p.2
  | none => s

/-- `pop_recent = pop_df[["country", RECENT_YEAR]]` (line 65): the country
column paired with the cell of the chosen year column. -/
def popRecent (pop : PopTable) (y : String) : List (String × Option Int) :=
  pop.rows.map (fun r => (r.country, rowCell pop.otherCols r.cells y))

/-- `dropna(subset=["population"])` followed by `astype(int)` (lines 67 and
68): rows with a null population vanish, the rest keep their integer
value. -/
def dropnaIntRows (l : List (String × Option Int)) : List (String × Int) :=
  l.filterMap (fun cv => cv.2.map (fun n => (cv.1, n)))

/-- The reconciliation rewrite of the country column (line 90). -/
def reconcile (l : List (String × Int)) : List (String × Int) :=
  l.map (fun cv => (applyMap cv.1, cv.2))

/-- The merged rows contributed by one boundary row under a left join on
the country name: one row per matching population row, or a single row
with population 0 (the `fillna(0)` of line 96) when nothing matches. -/
def mergeBlock {K : Type} (popInt : List (String × Int)) (w : GeoRow K) :
    List (MergedCountry K) :=
  let ms := popInt.filter (fun cv => cv.1 = w.country)
  if ms.isEmpty then [⟨w.country, w.lat, w.lng, 0⟩]
  else ms.map (fun cv => ⟨w.country, w.lat, w.lng, cv.2⟩)

/-- `world_gdf.merge(pop_recent, on="country", how="left")` followed by
`fillna(0)` on the population column (lines 93 and 96): every boundary row
is kept and contributes its block of matches. -/
def mergeLeft {K : Type} (world : List (GeoRow K)) (popInt : List (String × Int)) :
    List (MergedCountry K) :=
  world.flatMap (mergeBlock popInt)

/-- The whole population-side cleaning followed by the merge. -/
def mergeRecent {K : Type} (world : List (GeoRow K))
    (popRows : List (String × Option Int)) : List (MergedCountry K) :=
  mergeLeft world (reconcile (dropnaIntRows popRows))

/-- `load_and_preprocess_data` (lines 46 to 99) on already-parsed inputs:
checks that the chosen year is a column (line 62 raises ValueError, here
`none`, otherwise), builds the merged frame and returns it together with
the population table, whose first column has been renamed to country. -/
def load_and_preprocess_data {K : Type} (world : List (GeoRow K)) (pop : PopTable)
    (recentYear : String) : Option (List (MergedCountry K) × PopTable) :=
  if recentYear ∈ pop.otherCols then
    some (mergeRecent world (popRecent pop recentYear), pop)
  else none

/-! ### Hotspot analysis (script lines 143 to 187)

DBSCAN is modelled after the sklearn implementation: neighborhoods (points
within `eps`, by Euclidean distance in degree space) are computed once; a
point is core when its neighborhood, itself included, has at least
`min_samples` members; labels start at -1 (noise); the outer loop scans the
points in index order and, at each unlabeled core point, grows a new
cluster through a worklist.  The worklist recursion carries fuel; the fuel
passed by `dbscanLabels` exceeds the total number of worklist pushes, so it
never runs out. -/

variable {K : Type} [LinearOrderedCommRing K]

/-- Squared Euclidean distance between two (latitude, longitude) pairs. -/
def dist2 (p q : K × K) : K :=
  (p.1 - q.1) * (p.1 - q.1) + (p.2 - q.2) * (p.2 - q.2)

/-- Indices of the points within distance `eps` of point `i` (squared
distances compared against `eps2 = eps * eps`); the point itself is a
member, as in sklearn radius queries. -/
def nbrsIdx (eps2 : K) (pts : List (K × K)) (i : Nat) : List Nat :=
  (List.range pts.length).filter
    (fun j => dist2 (pts.getD i (0, 0)) (pts.getD j (0, 0)) ≤ eps2)

/-- All neighborhoods, precomputed once as sklearn does. -/
def neighborhoods (eps2 : K) (pts : List (K × K)) : List (List Nat) :=
  (List.range pts.length).map (nbrsIdx eps2 pts)

/-- Core test: at least `minS` samples in the neighborhood of `i`. -/
def isCoreAt (minS : Nat) (nbhds : List (List Nat)) (i : Nat) : Bool :=
  minS ≤ (nbhds.getD i []).length

/-- Grow cluster `c` from the worklist: an unlabeled popped point gets
label `c` and, when core, enqueues its neighborhood. -/
def expand (nbhds : List (List Nat)) (minS : Nat) (c : Int) :
    Nat → List Nat → List Int → List Int
  | 0, _, labels => labels
  | _ + 1, [], labels => labels
  | fuel + 1, i :: stack, labels =>
    if labels.getD i 0 = -1 then
      let labels1 := labels.set i c
      if isCoreAt minS nbhds i then
        expand nbhds minS c fuel (nbhds.getD i [] ++ stack) labels1
      else expand nbhds minS c fuel stack labels1
    else expand nbhds minS c fuel stack labels

/-- Outer DBSCAN loop: scan indices in order, start a new cluster at every
unlabeled core point. -/
def dbscanAux (nbhds : List (List Nat)) (minS : Nat) (fuel : Nat) :
    List Nat → Int → List Int → List Int
  | [], _, labels => labels
  | i :: rest, c, labels =>
    if labels.getD i 0 = -1 && isCoreAt minS nbhds i then
      dbscanAux nbhds minS fuel rest (c + 1) (expand nbhds minS c fuel [i] labels)
    else dbscanAux nbhds minS fuel rest c labels

/-- `DBSCAN(eps, min_samples).fit(coords).labels_`: one label per point,
-1 for noise, clusters numbered 0, 1, 2, ... in order of discovery. -/
def dbscanLabels (eps2 : K) (minS : Nat) (pts : List (K × K)) : List Int :=
  let nbhds := neighborhoods eps2 pts
  dbscanAux nbhds minS ((pts.length + 1) * (pts.length + 1))
    (List.range pts.length) 0 (List.replicate pts.length (-1))

/-- `DBSCAN(eps=15, min_samples=3).fit(coords)` (line 162): sklearn
validates its input and raises ValueError (here `none`) when the sample
set is empty. -/
def dbscanFit (eps2 : K) (minS : Nat) (pts : List (K × K)) :
    Option (List Int) :=
  if pts.isEmpty then none else some (dbscanLabels eps2 minS pts)

/-- `hotspot_gdf = gdf[gdf["population"] > 1_000_000].copy()` (line 153). -/
def hotspotFilter (gdf : List (MergedCountry K)) : List (MergedCountry K) :=
  gdf.filter (fun r => 1000000 < r.population)

/-- `coords = np.array([[p.y, p.x] for p in hotspot_gdf["centroid"]])`
(lines 156 and 157): the (latitude, longitude) centroid of every
qualifying country. -/
def hotspotCoords (gdf : List (MergedCountry K)) : List (K × K) :=
  (hotspotFilter gdf).map (fun r => (r.lat, r.lng))

/-- `num_clusters = len(set(db.labels_)) - (1 if -1 in db.labels_ else 0)`
(line 170). -/
def numClusters (labels : List Int) : Nat :=
  (distincts labels).length - (if -1 ∈ labels then 1 else 0)

/-- The fixed qualitative palette `px.colors.qualitative.Bold`
(11 colors). -/
def boldPalette : List String :=
  ["rgb(127, 60, 141)", "rgb(17, 165, 121)", "rgb(57, 105, 172)",
   "rgb(242, 183, 1)", "rgb(231, 63, 116)", "rgb(128, 186, 90)",
   "rgb(230, 131, 16)", "rgb(0, 134, 149)", "rgb(207, 28, 144)",
   "rgb(249, 123, 114)", "rgb(165, 170, 153)"]

/-- One `folium.CircleMarker` of the hotspot layer: country, cluster id,
marker color and centroid location (lines 176 to 184). -/
structure Marker (K : Type) where
  country : String
  clusterId : Nat
  color : String
  lat : K
  lng : K
deriving DecidableEq

/-- The marker loop of lines 173 to 184: for every cluster id, every row of
that cluster becomes a marker colored `colors[cluster_id]`.  The lookup
happens inside the row loop, so a cluster with no rows reads no color; an
out-of-range lookup is the IndexError, modelled as `none`. -/
def renderLoop (colors : List String) (rows : List (MergedCountry K))
    (labels : List Int) (acc : List (Marker K)) : List Nat → Option (List (Marker K))
  | [] => some acc
  | cid :: rest =>
    let pts := (rows.zip labels).filter (fun rl => rl.2 = (cid : Int))
    if pts.isEmpty then renderLoop colors rows labels acc rest
    else
      match colors.get? cid with
      | none => none
      | some col =>
        renderLoop colors rows labels
          (acc ++ pts.map (fun rl => ⟨rl.1.country, cid, col, rl.1.lat, rl.1.lng⟩))
          rest

/-- Lines 170 to 184: truncate the palette with `Bold[:num_clusters]` and
run the marker loop over `range(num_clusters)`. -/
def renderMarkers (rows : List (MergedCountry K)) (labels : List Int) :
    Option (List (Marker K)) :=
  renderLoop (boldPalette.take (numClusters labels)) rows labels []
    (List.range (numClusters labels))

/-- `perform_hotspot_analysis` (lines 143 to 187).  The first component is
the caller-visible state of `gdf` after the call: the function works on a
`.copy()` of the filtered frame, so the input comes back unchanged.  The
second component is the hotspot layer content, `none` when the call
raises. -/
def perform_hotspot_analysis (gdf : List (MergedCountry K)) :
    List (MergedCountry K) × Option (List (Marker K)) :=
  (gdf, do
    let labels ← dbscanFit 225 3 (hotspotCoords gdf)
    renderMarkers (hotspotFilter gdf) labels)

/-! ### Continent aggregation and time series (script lines 190 to 238) -/

/-- One row of the final time-series frame: continent, numeric year and the
summed population (`continent_ts` after `pd.to_numeric` on the year,
lines 215 to 217). -/
structure TSRow where
  continent : String
  year : Nat
  population : Int
deriving DecidableEq

/-- `get_continent` (lines 199 to 204): the name-to-continent lookup of
`pycountry_convert`, abstracted as `resolve`; `none` is the caught
exception branch returning None. -/
def get_continent (resolve : String → Option String) (name : String) :
    Option String :=
  resolve name

/-- The continent column written by
`pop_df["continent"] = pop_df["country"].apply(get_continent)`
(line 206). -/
def continentsOf (resolve : String → Option String) (pop : PopTable) :
    List (Option String) :=
  pop.rows.map (fun r => get_continent resolve r.country)

/-- `value_vars = [col for col in pop_df.columns if col.isdigit()]`
(line 210). -/
def value_vars (pop : PopTable) : List String :=
  pop.otherCols.filter pyIsdigit

/-- `pd.melt` (lines 211 and 212): one long row (continent, year label,
population cell) per year column and table row, stacked column by
column. -/
def meltLong (resolve : String → Option String) (pop : PopTable) :
    List (Option String × String × Option Int) :=
  (value_vars pop).flatMap (fun y =>
    (pop.rows.zip (continentsOf resolve pop)).map
      (fun rc => (rc.2, y, rowCell pop.otherCols rc.1.cells y)))

/-- The group keys of `groupby(["continent", "year"])` (line 215): the
distinct (continent, year) pairs; rows whose continent is null are dropped
by the groupby, as pandas does with null keys. -/
def groupKeys (long : List (Option String × String × Option Int)) :
    List (String × String) :=
  distincts (long.filterMap (fun e => e.1.map (fun c => (c, e.2.1))))

/-- The summed population of one (continent, year) group (line 215), with
the skipna semantics of `sum`. -/
def groupSum (long : List (Option String × String × Option Int))
    (k : String × String) : Int :=
  sumCells (long.filterMap (fun e =>
    if e.1 = some k.1 ∧ e.2.1 = k.2 then some e.2.2 else none))

/-- `continent_ts` (lines 215 to 217): grouped sums, then
`continent_ts.dropna()` (a no-op here: continent and year keys are non-null
after the groupby and the skipna sum is always a number), then
`pd.to_numeric` on the year labels.  The chart draws exactly these rows;
pandas sorts the group keys, which permutes rows but changes none of
them. -/
def continent_ts (resolve : String → Option String) (pop : PopTable) :
    List TSRow :=
  (groupKeys (meltLong resolve pop)).map
    (fun k => ⟨k.1, strToNat k.2, groupSum (meltLong resolve pop) k⟩)

/-- `create_time_series_plot` (lines 190 to 238).  The first component is
the caller-visible state of `pop_df` after the call: line 206 assigns the
continent column in place, a mutation the caller observes.  The second
component is the data of the rendered chart. -/
def create_time_series_plot (resolve : String → Option String)
    (pop : PopTable) : PopTable × List TSRow :=
  ({ pop with continentCol := some (continentsOf resolve pop) },
   continent_ts resolve pop)

/-! ### Derived table transforms and concrete inputs used in the theorems -/

/-- The same table with every null year cell replaced by an explicit 0:
used to state that null cells contribute exactly 0 to continent totals. -/
def fillZeroTable (pop : PopTable) : PopTable :=
  { pop with
    rows := pop.rows.map (fun r =>
      { r with cells := r.cells.map (fun o => some (o.getD 0)) }) }

/-- Twelve groups of three populous countries, groups 40 degrees apart and
each group inside a unit square: DBSCAN with eps 15 and min samples 3
yields twelve clusters, one more than the palette has colors. -/
def gdfTwelve : List (MergedCountry ℤ) :=
  (List.range 12).flatMap (fun g =>
    [⟨"x", 0, 40 * (g : ℤ), 2000000⟩,
     ⟨"x", 1, 40 * (g : ℤ), 2000000⟩,
     ⟨"x", 0, 40 * (g : ℤ) + 1, 2000000⟩])

/-- A merged table in which no country exceeds the population threshold. -/
def gdfNoneQualify : List (MergedCountry ℤ) :=
  [⟨"Tuvalu", -8, 178, 11000⟩, ⟨"Nauru", 0, 166, 12000⟩]

/-- A merged table with exactly two qualifying countries, far apart. -/
def gdfTwoQualify : List (MergedCountry ℤ) :=
  [⟨"A", 0, 0, 2000000⟩, ⟨"B", 0, 100, 3000000⟩, ⟨"tiny", 10, 10, 5⟩]

/-- Three qualifying countries inside a unit square plus one small one:
one cluster of three, and the small country out of the analysis. -/
def gdfOneCluster : List (MergedCountry ℤ) :=
  [⟨"P", 0, 0, 2000000⟩, ⟨"Q", 1, 0, 2000000⟩,
   ⟨"R", 0, 1, 2000000⟩, ⟨"tiny", 50, 50, 10⟩]

/-- A two-country boundary source used in the merge theorems. -/
def worldTwo : List (GeoRow ℤ) :=
  [⟨"Russia", 60, 100⟩, ⟨"France", 46, 2⟩]

/-- A population side with one reconciled match and one null value. -/
def popRowsTwo : List (String × Option Int) :=
  [("Russian Federation", some 144000000), ("France", none)]

/-- A small population table for the time-series theorems: one country
cell is null for 1960. -/
def popSmall : PopTable :=
  { otherCols := ["Country Code", "1960", "2022"],
    rows := [⟨"France", [some 1, some 50000000, some 68000000]⟩,
             ⟨"Germany", [some 2, none, some 84000000]⟩,
             ⟨"World", [some 3, some 3000000000, some 8000000000]⟩],
    continentCol := none }

/-- The continent lookup used with `popSmall` in witnesses: France and
Germany resolve to EU, the World aggregate fails to resolve. -/
def resolveSmall : String → Option String :=
  fun n => if n = "France" ∨ n = "Germany" then some "EU" else none


/-! ### Lemmas: digit strings and lexicographic order -/

theorem char_lt_iff_toNat_lt (c d : Char) : c < d ↔ c.toNat < d.toNat := Iff.rfl

theorem char_eq_of_toNat_eq {c d : Char} (h : c.toNat = d.toNat) : c = d :=
  Char.eq_of_val_eq (UInt32.ext h)

theorem isDigitCh_bounds {c : Char} (h : isDigitCh c = true) :
    48 ≤ c.toNat ∧ c.toNat ≤ 57 := by
  unfold isDigitCh at h
  simp only [Bool.and_eq_true, decide_eq_true_eq] at h
  exact h

theorem digitsToNat_lt_pow {l : List Char} (h : l.all isDigitCh = true) :
    digitsToNat l < 10 ^ l.length := by
  induction l with
  | nil => simp [digitsToNat]
  | cons c t ih =>
    simp only [List.all_cons, Bool.and_eq_true] at h
    have hc : digitVal c ≤ 9 := by
      have hb := isDigitCh_bounds h.1
      unfold digitVal
      omega
    have ht := ih h.2
    simp only [digitsToNat, List.length_cons]
    calc digitVal c * 10 ^ t.length + digitsToNat t
        < digitVal c * 10 ^ t.length + 10 ^ t.length := by omega
      _ = (digitVal c + 1) * 10 ^ t.length := by ring
      _ ≤ 10 * 10 ^ t.length := Nat.mul_le_mul_right _ (by omega)
      _ = 10 ^ (t.length + 1) := by ring

/-- On digit strings of equal length, strict numeric order implies strict
lexicographic order of the character lists. -/
theorem lex_lt_of_digits_lt : ∀ {l m : List Char}, l.length = m.length →
    l.all isDigitCh = true → m.all isDigitCh = true →
    digitsToNat l < digitsToNat m → List.Lex (· < ·) l m := by
  intro l
  induction l with
  | nil =>
    intro m hlen _ _ hlt
    cases m with
    | nil => simp [digitsToNat] at hlt
    | cons d u => simp at hlen
  | cons c t ih =>
    intro m hlen hdl hdm hlt
    cases m with
    | nil => simp at hlen
    | cons d u =>
      have hlen2 : t.length = u.length := by simpa using hlen
      simp only [List.all_cons, Bool.and_eq_true] at hdl hdm
      have hbu := digitsToNat_lt_pow hdm.2
      have hcb := isDigitCh_bounds hdl.1
      have hdb := isDigitCh_bounds hdm.1
      simp only [digitsToNat, hlen2] at hlt
      rcases Nat.lt_trichotomy (digitVal c) (digitVal d) with h | h | h
      · apply List.Lex.rel
        rw [char_lt_iff_toNat_lt]
        unfold digitVal at h
        omega
      · have hcd : c = d := by
          apply char_eq_of_toNat_eq
          unfold digitVal at h
          omega
        subst hcd
        exact List.Lex.cons (ih hlen2 hdl.2 hdm.2 (by omega))
      · exfalso
        have hste : (digitVal d + 1) * 10 ^ u.length ≤ digitVal c * 10 ^ u.length :=
          Nat.mul_le_mul_right _ h
        have hexp : (digitVal d + 1) * 10 ^ u.length
            = digitVal d * 10 ^ u.length + 10 ^ u.length := by ring
        omega

/-- Domination is transitive for the lexicographic order used by the max
fold. -/
theorem lex_notlt_trans {l m n : List Char} (h1 : ¬ l < m) (h2 : ¬ m < n) :
    ¬ l < n := by
  intro hln
  rcases lt_trichotomy m n with hmn | rfl | hnm
  · exact h2 hmn
  · exact h1 hln
  · exact h1 (lt_trans hln hnm)

/-- The result of the Python max fold is an element of the scanned list. -/
theorem foldl_max_mem (xs : List String) : ∀ x : String,
    xs.foldl (fun a b => if a.data < b.data then b else a) x = x ∨
      xs.foldl (fun a b => if a.data < b.data then b else a) x ∈ xs := by
  induction xs with
  | nil => intro x; left; rfl
  | cons b bs ih =>
    intro x
    simp only [List.foldl_cons]
    by_cases h : x.data < b.data
    · simp only [if_pos h]
      rcases ih b with h1 | h1
      · right; rw [h1]; exact List.mem_cons_self b bs
      · right; exact List.mem_cons_of_mem _ h1
    · simp only [if_neg h]
      rcases ih x with h1 | h1
      · left; exact h1
      · right; exact List.mem_cons_of_mem _ h1

/-- The result of the Python max fold dominates the start value and every
scanned element. -/
theorem foldl_max_ub (xs : List String) : ∀ x c : String, c ∈ x :: xs →
    ¬ (xs.foldl (fun a b => if a.data < b.data then b else a) x).data < c.data := by
  induction xs with
  | nil =>
    intro x c hc
    simp only [List.mem_singleton] at hc
    subst hc
    exact lt_irrefl _
  | cons b bs ih =>
    intro x c hc
    simp only [List.foldl_cons]
    have hmx : ¬ (if x.data < b.data then b else x).data < x.data := by
      by_cases h : x.data < b.data
      · rw [if_pos h]; exact lt_asymm h
      · rw [if_neg h]; exact lt_irrefl _
    have hmb : ¬ (if x.data < b.data then b else x).data < b.data := by
      by_cases h : x.data < b.data
      · rw [if_pos h]; exact lt_irrefl _
      · rw [if_neg h]; exact h
    have htop := ih (if x.data < b.data then b else x) _ (List.mem_cons_self _ _)
    rcases List.mem_cons.mp hc with rfl | hc
    · exact lex_notlt_trans htop hmx
    · rcases List.mem_cons.mp hc with rfl | hc
      · exact lex_notlt_trans htop hmb
      · exact ih _ _ (List.mem_cons_of_mem _ hc)

theorem pyMaxStr_spec {l : List String} {y : String} (h : pyMaxStr l = some y) :
    y ∈ l ∧ ∀ c ∈ l, ¬ y.data < c.data := by
  cases l with
  | nil => simp [pyMaxStr] at h
  | cons x xs =>
    simp only [pyMaxStr, Option.some.injEq] at h
    subst h
    constructor
    · rcases foldl_max_mem xs x with h1 | h1
      · rw [h1]; exact List.mem_cons_self _ _
      · exact List.mem_cons_of_mem _ h1
    · intro c hc
      exact foldl_max_ub xs x c hc

/-- C2: the claim as stated is false.  With digit headers 999 and 1000 the
loader selects the header 999, because Python max compares the year
headers as strings; yet 999 read as an integer is smaller than 1000 read
as an integer. -/
theorem recentYear_not_numeric_max :
    computeRecentYear ["country", "999", "1000"] = some "999" ∧
      pyIsdigit "1000" = true ∧ strToNat "999" < strToNat "1000" :=
  ⟨by decide, by decide, by decide⟩

/-- C2 (amended): the loader picks the lexicographically greatest
digit-string header, which coincides with the numeric maximum whenever all
digit-string headers have the same length (as with four-digit years); when
the population file is absent the default year string 2022 is used. -/
theorem recentYear_lex_max_spec (cols : List String) (y : String)
    (hsame : ∀ a ∈ cols, ∀ b ∈ cols, pyIsdigit a = true → pyIsdigit b = true →
      a.data.length = b.data.length)
    (hy : computeRecentYear cols = some y) :
    RECENT_YEAR none = some "2022" ∧
      pyIsdigit y = true ∧ y ∈ cols ∧
      ∀ c ∈ cols, pyIsdigit c = true → strToNat c ≤ strToNat y := by
  have hspec := pyMaxStr_spec hy
  have hymem := List.mem_filter.mp hspec.1
  refine ⟨rfl, hymem.2, hymem.1, ?_⟩
  intro c hc hcd
  by_contra hlt
  push_neg at hlt
  have hcy : ¬ y.data < c.data := hspec.2 c (List.mem_filter.mpr ⟨hc, hcd⟩)
  have hylen : y.data.length = c.data.length := hsame y hymem.1 c hc hymem.2 hcd
  have hyd : y.data.all isDigitCh = true := by
    have := hymem.2
    unfold pyIsdigit at this
    simp only [Bool.and_eq_true] at this
    exact this.2
  have hcdall : c.data.all isDigitCh = true := by
    have := hcd
    unfold pyIsdigit at this
    simp only [Bool.and_eq_true] at this
    exact this.2
  exact hcy (lex_lt_of_digits_lt hylen hyd hcdall hlt)

/-- C2 witness: the amended statement applied to a concrete header row. -/
theorem recentYear_lex_max_spec_witness :
    RECENT_YEAR none = some "2022" ∧
      pyIsdigit "2022" = true ∧ "2022" ∈ ["country", "2021", "2022"] ∧
      ∀ c ∈ ["country", "2021", "2022"], pyIsdigit c = true →
        strToNat c ≤ strToNat "2022" :=
  recentYear_lex_max_spec ["country", "2021", "2022"] "2022"
    (by decide) (by decide)

/-! ### C3: frame effects of the pipeline components -/

/-- C3: the claim as stated is false.  `create_time_series_plot` assigns a
continent column into the population dataframe it was passed, so after the
call the shared table differs from the value the caller passed in. -/
theorem time_series_mutates_input :
    (create_time_series_plot (fun n => if n = "France" then some "EU" else none)
        { otherCols := ["2022"],
          rows := [⟨"France", [some 68000000]⟩],
          continentCol := none }).1 ≠
      { otherCols := ["2022"],
        rows := [⟨"France", [some 68000000]⟩],
        continentCol := none } := by
  decide

/-- C3 (amended): the hotspot detector leaves the merged table it receives
unchanged (it works on a copy), while the time-series renderer writes the
continent column into the shared population table in place and leaves the
column list and the rows themselves unchanged. -/
theorem pipeline_frame_effects {K : Type} [LinearOrderedCommRing K]
    (resolve : String → Option String) (pop : PopTable)
    (gdf : List (MergedCountry K)) :
    (perform_hotspot_analysis gdf).1 = gdf ∧
      (create_time_series_plot resolve pop).1.otherCols = pop.otherCols ∧
      (create_time_series_plot resolve pop).1.rows = pop.rows ∧
      (create_time_series_plot resolve pop).1.continentCol =
        some (continentsOf resolve pop) :=
  ⟨rfl, rfl, rfl, rfl⟩

/-! ### Lemmas: the left join on country names -/

theorem filter_fst_eq_nil {l : List (String × Int)} {w : String}
    (h : ∀ cv ∈ l, cv.1 ≠ w) : l.filter (fun cv => cv.1 = w) = [] := by
  induction l with
  | nil => rfl
  | cons a as ih =>
    have ha := h a (List.mem_cons_self _ _)
    simp only [List.filter_cons]
    rw [if_neg (by simpa using ha)]
    exact ih (fun cv hc => h cv (List.mem_cons_of_mem _ hc))

theorem filter_fst_len_le_one {l : List (String × Int)}
    (h : (l.map Prod.fst).Nodup) (w : String) :
    (l.filter (fun cv => cv.1 = w)).length ≤ 1 := by
  induction l with
  | nil => simp
  | cons a as ih =>
    simp only [List.map_cons, List.nodup_cons] at h
    by_cases haw : a.1 = w
    · have hnil : as.filter (fun cv => cv.1 = w) = [] := by
        apply filter_fst_eq_nil
        intro cv hc hcw
        apply h.1
        rw [haw, ← hcw]
        exact List.mem_map_of_mem Prod.fst hc
      simp only [List.filter_cons]
      rw [if_pos (by simpa using haw), hnil]
      simp
    · simp only [List.filter_cons]
      rw [if_neg (by simpa using haw)]
      exact ih h.2

/-- Under a duplicate-free population key column, every boundary row
contributes exactly one merged row, carrying its own country name and
either a matched population value or the fill value 0. -/
theorem mergeBlock_eq {K : Type} {popInt : List (String × Int)}
    (hnd : (popInt.map Prod.fst).Nodup) (w : GeoRow K) :
    ∃ v : Int, mergeBlock popInt w = [⟨w.country, w.lat, w.lng, v⟩] ∧
      (v = 0 ∨ (w.country, v) ∈ popInt) := by
  unfold mergeBlock
  have hle := filter_fst_len_le_one hnd w.country
  rcases Nat.le_one_iff_eq_zero_or_eq_one.mp hle with h0 | h1
  · have hnil := List.length_eq_zero.mp h0
    refine ⟨0, ?_, Or.inl rfl⟩
    rw [hnil]
    rfl
  · rcases List.length_eq_one.mp h1 with ⟨cv, hcv⟩
    have hmem : cv ∈ popInt.filter (fun x => x.1 = w.country) := by
      rw [hcv]; exact List.mem_cons_self _ _
    have hm := List.mem_filter.mp hmem
    have hfst : cv.1 = w.country := by simpa using hm.2
    refine ⟨cv.2, ?_, Or.inr ?_⟩
    · rw [hcv]
      rfl
    · have : (w.country, cv.2) = cv := by
        rw [← hfst]
      rw [this]
      exact hm.1

theorem mergeLeft_map_country {K : Type} (world : List (GeoRow K))
    {popInt : List (String × Int)} (hnd : (popInt.map Prod.fst).Nodup) :
    (mergeLeft world popInt).map MergedCountry.country =
      world.map GeoRow.country := by
  induction world with
  | nil => rfl
  | cons w ws ih =>
    rcases mergeBlock_eq hnd w with ⟨v, hb, _⟩
    simp only [mergeLeft, List.flatMap_cons, List.map_append, List.map_cons] at *
    rw [hb]
    simp only [List.map_cons, List.map_nil, List.singleton_append, List.cons.injEq]
    exact ⟨trivial, ih⟩

/-- Every merged row traces back to a boundary row, and its population is
either the fill value 0 or a matched population value. -/
theorem mergeLeft_mem_src {K : Type} {world : List (GeoRow K)}
    {popInt : List (String × Int)} {r : MergedCountry K}
    (hr : r ∈ mergeLeft world popInt) :
    ∃ w ∈ world, r.country = w.country ∧
      (r.population = 0 ∨ (r.country, r.population) ∈ popInt) := by
  rcases List.mem_flatMap.mp hr with ⟨w, hw, hblk⟩
  refine ⟨w, hw, ?_⟩
  unfold mergeBlock at hblk
  by_cases hempty : (popInt.filter (fun cv => cv.1 = w.country)).isEmpty
  · rw [if_pos hempty] at hblk
    simp only [List.mem_singleton] at hblk
    subst hblk
    exact ⟨rfl, Or.inl rfl⟩
  · rw [if_neg hempty] at hblk
    rcases List.mem_map.mp hblk with ⟨cv, hcv, heq⟩
    have hm := List.mem_filter.mp hcv
    have hfst : cv.1 = w.country := by simpa using hm.2
    subst heq
    refine ⟨rfl, Or.inr ?_⟩
    have : (w.country, cv.2) = cv := by rw [← hfst]
    simp only [this]
    exact hm.1

theorem reconcile_dropna_mem {l : List (String × Option Int)}
    {cv : String × Int} (h : cv ∈ reconcile (dropnaIntRows l)) :
    ∃ o ∈ l, o.2 = some cv.2 ∧ applyMap o.1 = cv.1 := by
  unfold reconcile at h
  rcases List.mem_map.mp h with ⟨cv0, hcv0, heq⟩
  unfold dropnaIntRows at hcv0
  rcases List.mem_filterMap.mp hcv0 with ⟨o, ho, hmap⟩
  cases h2 : o.2 with
  | none => rw [h2] at hmap; simp at hmap
  | some n =>
    rw [h2] at hmap
    simp only [Option.map_some', Option.some.injEq] at hmap
    subst hmap
    subst heq
    exact ⟨o, ho, by rw [h2], rfl⟩

theorem filter_length_via_map {β γ : Type} (f : β → γ) (p : γ → Bool)
    (l : List β) :
    (l.filter (fun b => p (f b))).length = ((l.map f).filter p).length := by
  induction l with
  | nil => rfl
  | cons a as ih =>
    simp only [List.filter_cons, List.map_cons]
    by_cases h : p (f a)
    · rw [if_pos h, if_pos h]
      simpa using ih
    · rw [if_neg h, if_neg h]
      exact ih

theorem dropna_filter_isSome (l : List (String × Option Int)) :
    dropnaIntRows (l.filter (fun cv => cv.2.isSome)) = dropnaIntRows l := by
  induction l with
  | nil => rfl
  | cons a as ih =>
    cases h2 : a.2 with
    | none =>
      simp only [List.filter_cons, h2, Option.isSome_none]
      rw [if_neg (by simp)]
      unfold dropnaIntRows
      simp only [List.filterMap_cons, h2, Option.map_none']
      exact ih
    | some n =>
      simp only [List.filter_cons, h2, Option.isSome_some]
      rw [if_pos (by simp)]
      unfold dropnaIntRows
      simp only [List.filterMap_cons, h2, Option.map_some']
      unfold dropnaIntRows at ih
      rw [ih]

theorem filter_eq_self_nil {l : List String} {w : String} (h : w ∉ l) :
    l.filter (fun c => c = w) = [] := by
  induction l with
  | nil => rfl
  | cons a as ih =>
    have haw : a ≠ w := fun he => h (he ▸ List.mem_cons_self _ _)
    simp only [List.filter_cons]
    rw [if_neg (by simpa using haw)]
    exact ih (fun hm => h (List.mem_cons_of_mem _ hm))

theorem filter_eq_self_one {l : List String} (hnd : l.Nodup) {w : String}
    (hw : w ∈ l) : (l.filter (fun c => c = w)).length = 1 := by
  induction l with
  | nil => simp at hw
  | cons a as ih =>
    simp only [List.nodup_cons] at hnd
    rcases List.mem_cons.mp hw with rfl | hw2
    · simp only [List.filter_cons]
      rw [if_pos (by simp), filter_eq_self_nil hnd.1]
      rfl
    · have haw : a ≠ w := fun he => hnd.1 (he ▸ hw2)
      simp only [List.filter_cons]
      rw [if_neg (by simpa using haw)]
      exact ih hnd.2 hw2

/-- C5: on valid inputs (duplicate-free boundary names, duplicate-free
reconciled population keys, nonnegative population values), the merged
country column is exactly the boundary country column, every boundary
country appears exactly once, no merged row comes from the population
source alone, and every merged population is nonnegative. -/
theorem merge_invariants {K : Type} (world : List (GeoRow K)) (pop : PopTable)
    (y : String) (merged : List (MergedCountry K)) (popOut : PopTable)
    (heq : load_and_preprocess_data world pop y = some (merged, popOut))
    (hw : (world.map GeoRow.country).Nodup)
    (hp : ((reconcile (dropnaIntRows (popRecent pop y))).map Prod.fst).Nodup)
    (hv : ∀ cv ∈ popRecent pop y, ∀ n : Int, cv.2 = some n → 0 ≤ n) :
    merged.map MergedCountry.country = world.map GeoRow.country ∧
      (∀ w ∈ world,
        (merged.filter (fun r => r.country = w.country)).length = 1) ∧
      ∀ r ∈ merged, r.country ∈ world.map GeoRow.country ∧ 0 ≤ r.population := by
  unfold load_and_preprocess_data at heq
  by_cases hy : y ∈ pop.otherCols
  · rw [if_pos hy] at heq
    simp only [Option.some.injEq, Prod.mk.injEq] at heq
    obtain ⟨h1, _⟩ := heq
    subst h1
    have hmap := mergeLeft_map_country world hp
    refine ⟨hmap, ?_, ?_⟩
    · intro w hwmem
      have hlen := filter_length_via_map MergedCountry.country
        (fun c => decide (c = w.country)) (mergeRecent world (popRecent pop y))
      rw [hlen]
      unfold mergeRecent at hmap ⊢
      rw [hmap]
      exact filter_eq_self_one hw (List.mem_map_of_mem GeoRow.country hwmem)
    · intro r hr
      rcases mergeLeft_mem_src hr with ⟨w, hwmem, hc, hval⟩
      refine ⟨hc ▸ List.mem_map_of_mem GeoRow.country hwmem, ?_⟩
      rcases hval with h0 | hmem
      · rw [h0]
      · rcases reconcile_dropna_mem hmem with ⟨o, ho, hsome, _⟩
        exact hv o ho r.population hsome
  · rw [if_neg hy] at heq
    simp at heq

/-- C5 witness: the invariants on a concrete boundary and population
source. -/
theorem merge_invariants_witness :
    (mergeRecent worldTwo (popRecent popSmall "2022")).map
        MergedCountry.country = worldTwo.map GeoRow.country ∧
      (∀ w ∈ worldTwo,
        ((mergeRecent worldTwo (popRecent popSmall "2022")).filter
          (fun r => r.country = w.country)).length = 1) ∧
      ∀ r ∈ mergeRecent worldTwo (popRecent popSmall "2022"),
        r.country ∈ worldTwo.map GeoRow.country ∧ 0 ≤ r.population := by
  have h := merge_invariants worldTwo popSmall "2022"
    (mergeRecent worldTwo (popRecent popSmall "2022")) popSmall rfl
    (by decide) (by decide) (by decide)
  exact h

/-- C6: a boundary country matched by no reconciled population row merges
with population exactly 0 (an integer, never a missing value) and is
present in the merged output. -/
theorem unmatched_boundary_population_zero {K : Type}
    (world : List (GeoRow K)) (pop : PopTable) (y : String)
    (merged : List (MergedCountry K)) (popOut : PopTable)
    (heq : load_and_preprocess_data world pop y = some (merged, popOut))
    (w : GeoRow K) (hw : w ∈ world)
    (hno : ∀ cv ∈ reconcile (dropnaIntRows (popRecent pop y)),
      cv.1 ≠ w.country) :
    (∀ r ∈ merged, r.country = w.country → r.population = 0) ∧
      ∃ r ∈ merged, r.country = w.country ∧ r.population = 0 := by
  unfold load_and_preprocess_data at heq
  by_cases hy : y ∈ pop.otherCols
  · rw [if_pos hy] at heq
    simp only [Option.some.injEq, Prod.mk.injEq] at heq
    obtain ⟨h1, _⟩ := heq
    subst h1
    constructor
    · intro r hr hrc
      rcases mergeLeft_mem_src hr with ⟨w2, _, _, h0 | hmem⟩
      · exact h0
      · exfalso
        exact hno _ hmem hrc
    · refine ⟨⟨w.country, w.lat, w.lng, 0⟩, ?_, rfl, rfl⟩
      apply List.mem_flatMap.mpr
      refine ⟨w, hw, ?_⟩
      unfold mergeBlock
      rw [filter_fst_eq_nil hno]
      simp
  · rw [if_neg hy] at heq
    simp at heq

/-- C6 witness: Russia is in the boundary source of `worldTwo` but no row
of `popSmall` reconciles to it, so it merges with population zero. -/
theorem unmatched_boundary_population_zero_witness :
    (∀ r ∈ mergeRecent worldTwo (popRecent popSmall "2022"),
      r.country = "Russia" → r.population = 0) ∧
      ∃ r ∈ mergeRecent worldTwo (popRecent popSmall "2022"),
        r.country = "Russia" ∧ r.population = 0 := by
  have h := unmatched_boundary_population_zero worldTwo popSmall "2022"
    (mergeRecent worldTwo (popRecent popSmall "2022")) popSmall rfl
    ⟨"Russia", 60, 100⟩ (by decide) (by decide)
  exact h

/-- C9: rows whose most-recent-year value is null are dropped before the
join, so the pipeline result is the same as if they were absent from the
population source, and a boundary country whose only population rows are
null merges with population 0. -/
theorem null_recent_year_drop {K : Type} (world : List (GeoRow K))
    (popRows : List (String × Option Int)) (w : GeoRow K) (_hw : w ∈ world)
    (hnull : ∀ cv ∈ popRows, applyMap cv.1 = w.country → cv.2 = none) :
    mergeRecent world popRows =
        mergeRecent world (popRows.filter (fun cv => cv.2.isSome)) ∧
      ∀ r ∈ mergeRecent world popRows, r.country = w.country →
        r.population = 0 := by
  constructor
  · unfold mergeRecent
    rw [dropna_filter_isSome]
  · intro r hr hrc
    rcases mergeLeft_mem_src hr with ⟨w2, _, _, h0 | hmem⟩
    · exact h0
    · exfalso
      rcases reconcile_dropna_mem hmem with ⟨o, ho, hsome, happ⟩
      have := hnull o ho (by rw [happ, hrc])
      rw [this] at hsome
      exact Option.noConfusion hsome

/-- C9 witness: the France row of `popRowsTwo` is null, so France merges
with population 0 and dropping null rows changes nothing. -/
theorem null_recent_year_drop_witness :
    mergeRecent worldTwo popRowsTwo =
        mergeRecent worldTwo (popRowsTwo.filter (fun cv => cv.2.isSome)) ∧
      ∀ r ∈ mergeRecent worldTwo popRowsTwo, r.country = "France" →
        r.population = 0 := by
  have h := null_recent_year_drop worldTwo popRowsTwo ⟨"France", 46, 2⟩
    (by decide) (by decide)
  exact h

/-! ### Lemmas: DBSCAN and the marker loop -/

theorem nbrsIdx_length_le {K : Type} [LinearOrderedCommRing K] (eps2 : K)
    (pts : List (K × K)) (i : Nat) :
    (nbrsIdx eps2 pts i).length ≤ pts.length := by
  unfold nbrsIdx
  calc ((List.range pts.length).filter _).length
      ≤ (List.range pts.length).length := List.length_filter_le _ _
    _ = pts.length := List.length_range _

theorem neighborhoods_getD_length_le {K : Type} [LinearOrderedCommRing K]
    (eps2 : K) (pts : List (K × K)) (i : Nat) :
    ((neighborhoods eps2 pts).getD i []).length ≤ pts.length := by
  cases hq : (neighborhoods eps2 pts).get? i with
  | none => rw [List.getD_eq_getElem?_getD, ← List.get?_eq_getElem?, hq]; simp
  | some l =>
    have hmem : l ∈ neighborhoods eps2 pts := List.get?_mem hq
    rcases List.mem_map.mp hmem with ⟨j, _, hl⟩
    rw [List.getD_eq_getElem?_getD, ← List.get?_eq_getElem?, hq]
    simpa [← hl] using nbrsIdx_length_le eps2 pts j

theorem dbscanAux_no_core (nbhds : List (List Nat)) (minS fuel : Nat)
    (h : ∀ i, isCoreAt minS nbhds i = false) :
    ∀ (idxs : List Nat) (c : Int) (labels : List Int),
      dbscanAux nbhds minS fuel idxs c labels = labels := by
  intro idxs
  induction idxs with
  | nil => intro c labels; rfl
  | cons i rest ih =>
    intro c labels
    simp only [dbscanAux, h i, Bool.and_false, Bool.false_eq_true, if_false]
    exact ih c labels

theorem distincts_replicate (n : Nat) (a : Int) :
    distincts (List.replicate (n + 1) a) = [a] := by
  induction n with
  | zero => simp [distincts]
  | succ m ih =>
    rw [List.replicate_succ]
    have hstep : distincts (a :: List.replicate (m + 1) a) =
        if a ∈ distincts (List.replicate (m + 1) a) then
          distincts (List.replicate (m + 1) a)
        else a :: distincts (List.replicate (m + 1) a) := rfl
    rw [hstep, ih]
    simp

theorem numClusters_replicate (n : Nat) (h : 1 ≤ n) :
    numClusters (List.replicate n (-1)) = 0 := by
  rcases Nat.exists_eq_add_of_le h with ⟨m, rfl⟩
  unfold numClusters
  rw [Nat.add_comm 1 m, distincts_replicate]
  have hmem : (-1 : Int) ∈ List.replicate (m + 1) (-1) :=
    List.mem_replicate.mpr ⟨Nat.succ_ne_zero m, rfl⟩
  rw [if_pos hmem]
  rfl

/-- C4: the claim as stated is false at the zero-qualifier edge: with no
country above the population threshold the coordinate array is empty and
the DBSCAN fit raises, so the hotspot step errors instead of completing
with an empty layer. -/
theorem hotspot_empty_input_error :
    hotspotFilter gdfNoneQualify = [] ∧
      (perform_hotspot_analysis gdfNoneQualify).2 = none := by
  constructor
  · decide
  · decide

/-- C4 (amended): with at least one and fewer than `min_samples = 3`
qualifying countries the hotspot step completes without error, finds zero
clusters, and produces an empty marker layer; with zero qualifying
countries the DBSCAN fit raises on its empty input. -/
theorem hotspot_under_min_samples {K : Type} [LinearOrderedCommRing K]
    (gdf : List (MergedCountry K))
    (h1 : 1 ≤ (hotspotFilter gdf).length)
    (h2 : (hotspotFilter gdf).length < 3) :
    (perform_hotspot_analysis gdf).2 = some [] ∧
      numClusters (dbscanLabels 225 3 (hotspotCoords gdf)) = 0 := by
  have hlen : (hotspotCoords gdf).length = (hotspotFilter gdf).length :=
    List.length_map _ _
  have hnocore : ∀ i,
      isCoreAt 3 (neighborhoods (225 : K) (hotspotCoords gdf)) i = false := by
    intro i
    apply decide_eq_false
    intro hle
    have hb := neighborhoods_getD_length_le (225 : K) (hotspotCoords gdf) i
    omega
  have hlabels : dbscanLabels (225 : K) 3 (hotspotCoords gdf) =
      List.replicate (hotspotCoords gdf).length (-1) := by
    unfold dbscanLabels
    exact dbscanAux_no_core _ _ _ hnocore _ _ _
  have hnc : numClusters (dbscanLabels (225 : K) 3 (hotspotCoords gdf)) = 0 := by
    rw [hlabels]
    exact numClusters_replicate _ (by omega)
  refine ⟨?_, hnc⟩
  have hne : (hotspotCoords gdf).isEmpty = false := by
    cases hcl : hotspotCoords gdf with
    | nil => rw [hcl] at hlen; simp at hlen; omega
    | cons p ps => rfl
  have hfit : dbscanFit (225 : K) 3 (hotspotCoords gdf) =
      some (dbscanLabels (225 : K) 3 (hotspotCoords gdf)) := by
    unfold dbscanFit
    rw [hne]
    simp
  simp only [perform_hotspot_analysis, hfit, Option.bind_eq_bind,
    Option.some_bind]
  unfold renderMarkers
  rw [hnc]
  rfl

/-- C4 witness: two qualifying countries far apart: no error, zero
clusters, empty hotspot layer. -/
theorem hotspot_under_min_samples_witness :
    (perform_hotspot_analysis gdfTwoQualify).2 = some [] ∧
      numClusters (dbscanLabels 225 3 (hotspotCoords gdfTwoQualify)) = 0 :=
  hotspot_under_min_samples gdfTwoQualify (by decide) (by decide)

theorem renderLoop_total {K : Type} [LinearOrderedCommRing K]
    (colors : List String) (rows : List (MergedCountry K))
    (labels : List Int) :
    ∀ (cids : List Nat) (acc : List (Marker K)),
      (∀ cid ∈ cids, cid < colors.length) →
      ∃ ms, renderLoop colors rows labels acc cids = some ms := by
  intro cids
  induction cids with
  | nil => intro acc _; exact ⟨acc, rfl⟩
  | cons cid rest ih =>
    intro acc hb
    have hcid := hb cid (List.mem_cons_self _ _)
    unfold renderLoop
    by_cases hempty :
        ((rows.zip labels).filter (fun rl => rl.2 = (cid : Int))).isEmpty
    · rw [if_pos hempty]
      exact ih acc (fun c hc => hb c (List.mem_cons_of_mem _ hc))
    · rw [if_neg hempty]
      cases hcol : colors.get? cid with
      | none =>
        exfalso
        have := List.get?_eq_none.mp hcol
        omega
      | some col =>
        exact ih _ (fun c hc => hb c (List.mem_cons_of_mem _ hc))

theorem renderLoop_mem_src {K : Type} [LinearOrderedCommRing K]
    (colors : List String) (rows : List (MergedCountry K))
    (labels : List Int) :
    ∀ (cids : List Nat) (acc ms : List (Marker K)),
      renderLoop colors rows labels acc cids = some ms →
      ∀ m ∈ ms, m ∈ acc ∨
        ∃ rl ∈ rows.zip labels, m.country = rl.1.country := by
  intro cids
  induction cids with
  | nil =>
    intro acc ms h m hm
    simp only [renderLoop, Option.some.injEq] at h
    subst h
    exact Or.inl hm
  | cons cid rest ih =>
    intro acc ms h m hm
    unfold renderLoop at h
    by_cases hempty :
        ((rows.zip labels).filter (fun rl => rl.2 = (cid : Int))).isEmpty
    · rw [if_pos hempty] at h
      exact ih acc ms h m hm
    · rw [if_neg hempty] at h
      cases hcol : colors.get? cid with
      | none => rw [hcol] at h; exact absurd h (by simp)
      | some col =>
        rw [hcol] at h
        rcases ih _ ms h m hm with hacc | hsrc
        · rcases List.mem_append.mp hacc with h1 | h2
          · exact Or.inl h1
          · rcases List.mem_map.mp h2 with ⟨rl, hrl, heq⟩
            refine Or.inr ⟨rl, List.mem_of_mem_filter hrl, ?_⟩
            rw [← heq]
        · exact Or.inr hsrc

set_option maxRecDepth 1000000 in
/-- C1: the claim as stated is false.  Twelve well-separated groups of
three populous countries yield twelve clusters; the palette slice
`Bold[:12]` still has only its 11 colors, and the marker loop raises an
IndexError at cluster id 11 instead of wrapping around or truncating. -/
theorem palette_overflow_crash :
    11 < numClusters (dbscanLabels (225 : ℤ) 3 (hotspotCoords gdfTwelve)) ∧
      (perform_hotspot_analysis gdfTwelve).2 = none := by
  constructor
  · decide
  · decide

/-- C1 (amended): whenever the clustering finds at most as many genuine
clusters as the palette has colors (11), every color lookup is in range
and marker rendering completes; beyond 11 clusters the slice truncates the
palette below the cluster count and the lookup raises. -/
theorem markers_render_within_palette {K : Type} [LinearOrderedCommRing K]
    (gdf : List (MergedCountry K)) (labels : List Int)
    (hfit : dbscanFit 225 3 (hotspotCoords gdf) = some labels)
    (hnc : numClusters labels ≤ 11) :
    ∃ ms, (perform_hotspot_analysis gdf).2 = some ms := by
  simp only [perform_hotspot_analysis, hfit, Option.bind_eq_bind,
    Option.some_bind]
  unfold renderMarkers
  apply renderLoop_total
  intro cid hcid
  have hlt : cid < numClusters labels := List.mem_range.mp hcid
  have hpal : boldPalette.length = 11 := rfl
  rw [List.length_take, hpal]
  omega

/-- C1 witness: a single cluster of three countries renders markers
without error. -/
theorem markers_render_within_palette_witness :
    ∃ ms, (perform_hotspot_analysis gdfOneCluster).2 = some ms :=
  markers_render_within_palette gdfOneCluster [0, 0, 0] (by decide) (by decide)

/-- C7: only countries with population strictly above 1,000,000 enter the
clustering point set, and every hotspot marker belongs to such a country;
no country at or below the threshold is clustered or marked. -/
theorem hotspot_threshold_exclusive {K : Type} [LinearOrderedCommRing K]
    (gdf : List (MergedCountry K)) (ms : List (Marker K))
    (hms : (perform_hotspot_analysis gdf).2 = some ms) :
    (∀ r ∈ hotspotFilter gdf, 1000000 < r.population) ∧
      (∀ p ∈ hotspotCoords gdf,
        ∃ r ∈ gdf, 1000000 < r.population ∧ p = (r.lat, r.lng)) ∧
      ∀ m ∈ ms, ∃ r ∈ gdf, r.country = m.country ∧ 1000000 < r.population := by
  refine ⟨?_, ?_, ?_⟩
  · intro r hr
    have := List.mem_filter.mp hr
    simpa using this.2
  · intro p hp
    rcases List.mem_map.mp hp with ⟨r, hr, heq⟩
    have hm := List.mem_filter.mp hr
    exact ⟨r, hm.1, by simpa using hm.2, heq.symm⟩
  · intro m hm
    simp only [perform_hotspot_analysis, Option.bind_eq_bind] at hms
    cases hfit : dbscanFit (225 : K) 3 (hotspotCoords gdf) with
    | none => rw [hfit] at hms; simp at hms
    | some labels =>
      rw [hfit] at hms
      simp only [Option.some_bind] at hms
      unfold renderMarkers at hms
      rcases renderLoop_mem_src _ _ _ _ _ _ hms m hm with habs | hsrc
      · simp at habs
      · rcases hsrc with ⟨rl, hrl, hc⟩
        have hr1 := (List.of_mem_zip hrl).1
        have hf := List.mem_filter.mp hr1
        exact ⟨rl.1, hf.1, hc.symm, by simpa using hf.2⟩

/-- C7 witness: in the one-cluster input every rendered marker belongs to
a country above the threshold. -/
theorem hotspot_threshold_exclusive_witness :
    (∀ r ∈ hotspotFilter gdfOneCluster, 1000000 < r.population) ∧
      (∀ p ∈ hotspotCoords gdfOneCluster,
        ∃ r ∈ gdfOneCluster, 1000000 < r.population ∧ p = (r.lat, r.lng)) ∧
      ∀ m ∈ [(⟨"P", 0, "rgb(127, 60, 141)", 0, 0⟩ : Marker ℤ),
             ⟨"Q", 0, "rgb(127, 60, 141)", 1, 0⟩,
             ⟨"R", 0, "rgb(127, 60, 141)", 0, 1⟩],
        ∃ r ∈ gdfOneCluster, r.country = m.country ∧ 1000000 < r.population :=
  hotspot_threshold_exclusive gdfOneCluster _ (by decide)

/-! ### Lemmas: melt, groupby and the continent totals -/

theorem sumCells_eq_map_getD (l : List (Option Int)) :
    sumCells l = (l.map (fun o => o.getD 0)).sum := by
  induction l with
  | nil => rfl
  | cons a as ih =>
    cases a with
    | none =>
      simp only [sumCells, List.filterMap_cons, id] at *
      simp only [List.map_cons, List.sum_cons, Option.getD_none, ih]
      omega
    | some n =>
      simp only [sumCells, List.filterMap_cons, id] at *
      simp only [List.map_cons, List.sum_cons, Option.getD_some, List.sum_cons, ih]

theorem mem_distincts {α : Type} [DecidableEq α] {l : List α} {a : α} :
    a ∈ distincts l ↔ a ∈ l := by
  induction l with
  | nil => simp [distincts]
  | cons b bs ih =>
    simp only [distincts]
    by_cases hb : b ∈ distincts bs
    · rw [if_pos hb]
      constructor
      · intro h; exact List.mem_cons_of_mem _ (ih.mp h)
      · intro h
        rcases List.mem_cons.mp h with rfl | h2
        · exact hb
        · exact ih.mpr h2
    · rw [if_neg hb]
      constructor
      · intro h
        rcases List.mem_cons.mp h with rfl | h2
        · exact List.mem_cons_self _ _
        · exact List.mem_cons_of_mem _ (ih.mp h2)
      · intro h
        rcases List.mem_cons.mp h with rfl | h2
        · exact List.mem_cons_self _ _
        · exact List.mem_cons_of_mem _ (ih.mpr h2)

theorem zip_map_self_mem {α β : Type} {l : List α} (f : α → β)
    {p : α × β} (hp : p ∈ l.zip (l.map f)) : p.1 ∈ l ∧ p.2 = f p.1 := by
  induction l with
  | nil => simp at hp
  | cons a as ih =>
    simp only [List.map_cons, List.zip_cons_cons, List.mem_cons] at hp
    rcases hp with rfl | hp
    · exact ⟨List.mem_cons_self _ _, rfl⟩
    · rcases ih hp with ⟨h1, h2⟩
      exact ⟨List.mem_cons_of_mem _ h1, h2⟩

theorem zip_map_self_filterMap {α β γ : Type} (l : List α) (f : α → β)
    (g : α × β → Option γ) :
    (l.zip (l.map f)).filterMap g = l.filterMap (fun a => g (a, f a)) := by
  induction l with
  | nil => rfl
  | cons a as ih =>
    simp only [List.map_cons, List.zip_cons_cons, List.filterMap_cons]
    cases g (a, f a) with
    | none => exact ih
    | some c => rw [ih]

theorem filterMap_flatMap {α β γ : Type} (l : List α) (f : α → List β)
    (g : β → Option γ) :
    (l.flatMap f).filterMap g = l.flatMap (fun a => (f a).filterMap g) := by
  induction l with
  | nil => rfl
  | cons a as ih =>
    simp only [List.flatMap_cons, List.filterMap_append, ih]

theorem flatMap_eq_nil_of_forall {α β : Type} {l : List α} {G : α → List β}
    (h : ∀ a ∈ l, G a = []) : l.flatMap G = [] := by
  induction l with
  | nil => rfl
  | cons a as ih =>
    simp only [List.flatMap_cons, h a (List.mem_cons_self _ _),
      List.nil_append]
    exact ih (fun b hb => h b (List.mem_cons_of_mem _ hb))

theorem flatMap_eq_single {α β : Type} [DecidableEq α] {l : List α}
    {G : α → List β} {y : α} (hnd : l.Nodup) (hy : y ∈ l)
    (h : ∀ a ∈ l, a ≠ y → G a = []) : l.flatMap G = G y := by
  induction l with
  | nil => simp at hy
  | cons a as ih =>
    simp only [List.nodup_cons] at hnd
    rcases List.mem_cons.mp hy with rfl | hy2
    · simp only [List.flatMap_cons]
      have hrest : as.flatMap G = [] := by
        apply flatMap_eq_nil_of_forall
        intro b hb
        exact h b (List.mem_cons_of_mem _ hb) (fun he => hnd.1 (he ▸ hb))
      rw [hrest, List.append_nil]
    · simp only [List.flatMap_cons]
      have ha : G a = [] := h a (List.mem_cons_self _ _)
        (fun he => hnd.1 (he ▸ hy2))
      rw [ha, List.nil_append]
      exact ih hnd.2 hy2 (fun b hb hne => h b (List.mem_cons_of_mem _ hb) hne)

theorem filterMap_if_eq_map_filter {α γ : Type} (l : List α)
    (p : α → Prop) [DecidablePred p] (f : α → γ) :
    (l.filterMap (fun a => if p a then some (f a) else none)) =
      (l.filter (fun a => p a)).map f := by
  induction l with
  | nil => rfl
  | cons a as ih =>
    by_cases h : p a
    · simp only [List.filterMap_cons, List.filter_cons, if_pos h]
      rw [if_pos (by simpa using h)]
      simp only [List.map_cons]
      rw [ih]
    · simp only [List.filterMap_cons, List.filter_cons, if_neg h]
      rw [if_neg (by simpa using h)]
      exact ih

/-- The value of one (continent, year) group: exactly the skipna sum of
that year column over the rows resolved to that continent. -/
theorem groupSum_eval (resolve : String → Option String) (pop : PopTable)
    (hnd : pop.otherCols.Nodup) (c : String) {y : String}
    (hy : y ∈ value_vars pop) :
    groupSum (meltLong resolve pop) (c, y) =
      ((pop.rows.filter
          (fun r => get_continent resolve r.country = some c)).map
        (fun r => (rowCell pop.otherCols r.cells y).getD 0)).sum := by
  unfold groupSum meltLong
  rw [filterMap_flatMap]
  have hvnd : (value_vars pop).Nodup := hnd.filter _
  rw [flatMap_eq_single hvnd hy (by
    intro y2 hy2 hne
    rw [List.filterMap_map]
    apply List.filterMap_eq_nil_iff.mpr
    intro rc hrc
    simp only [Function.comp_apply]
    rw [if_neg]
    rintro ⟨h1, h2⟩
    exact hne h2)]
  rw [List.filterMap_map]
  have hzip : (pop.rows.zip (continentsOf resolve pop)).filterMap
      ((fun e : Option String × String × Option Int =>
          if e.1 = some c ∧ e.2.1 = y then some e.2.2 else none) ∘
        (fun rc : PopRow × Option String =>
          (rc.2, y, rowCell pop.otherCols rc.1.cells y))) =
      pop.rows.filterMap (fun r =>
        if get_continent resolve r.country = some c ∧ y = y then
          some (rowCell pop.otherCols r.cells y) else none) := by
    unfold continentsOf
    exact zip_map_self_filterMap pop.rows _ _
  rw [hzip]
  simp only [and_true]
  rw [filterMap_if_eq_map_filter pop.rows
    (fun r => get_continent resolve r.country = some c)
    (fun r => rowCell pop.otherCols r.cells y)]
  rw [sumCells_eq_map_getD, List.map_map]
  rfl

/-- C8: every row of the final time-series data carries a successfully
resolved continent (never the unresolved marker, which the groupby drops),
and its total is exactly the sum of that year column over the rows of the
original population table resolved to that continent. -/
theorem continent_totals_correct (resolve : String → Option String)
    (pop : PopTable) (hnd : pop.otherCols.Nodup) :
    ∀ t ∈ (create_time_series_plot resolve pop).2,
      (∃ r ∈ pop.rows, get_continent resolve r.country = some t.continent) ∧
      ∃ y ∈ value_vars pop, strToNat y = t.year ∧
        t.population = ((pop.rows.filter
            (fun r => get_continent resolve r.country = some t.continent)).map
          (fun r => (rowCell pop.otherCols r.cells y).getD 0)).sum := by
  intro t ht
  have ht2 : t ∈ continent_ts resolve pop := ht
  unfold continent_ts at ht2
  rcases List.mem_map.mp ht2 with ⟨k, hk, hteq⟩
  unfold groupKeys at hk
  rcases List.mem_filterMap.mp (mem_distincts.mp hk) with ⟨e, hemem, heproj⟩
  cases he1 : e.1 with
  | none => rw [he1] at heproj; simp at heproj
  | some c0 =>
    rw [he1] at heproj
    simp only [Option.map_some', Option.some.injEq] at heproj
    unfold meltLong at hemem
    rcases List.mem_flatMap.mp hemem with ⟨y0, hy0, hblk⟩
    rcases List.mem_map.mp hblk with ⟨rc, hrc, hrceq⟩
    have hzipfact : rc.1 ∈ pop.rows ∧
        rc.2 = get_continent resolve rc.1.country := by
      unfold continentsOf at hrc
      exact zip_map_self_mem _ hrc
    have he2 : e.2.1 = y0 := by rw [← hrceq]
    have hec : rc.2 = some c0 := by rw [← he1, ← hrceq]
    have hkc : k = (c0, y0) := by rw [← heproj, he2]
    subst hkc
    subst hteq
    refine ⟨⟨rc.1, hzipfact.1, by rw [← hzipfact.2]; exact hec⟩, y0, hy0, rfl, ?_⟩
    exact groupSum_eval resolve pop hnd c0 hy0

/-- C8 witness: instantiated at the EU 2022 row of the concrete table,
whose total 152000000 is the France plus Germany 2022 sum; the World
aggregate fails to resolve and contributes no row. -/
theorem continent_totals_correct_witness :
    (∃ r ∈ popSmall.rows,
        get_continent resolveSmall r.country = some "EU") ∧
      ∃ y ∈ value_vars popSmall, strToNat y = 2022 ∧
        (152000000 : Int) = ((popSmall.rows.filter
            (fun r => get_continent resolveSmall r.country = some "EU")).map
          (fun r => (rowCell popSmall.otherCols r.cells y).getD 0)).sum :=
  continent_totals_correct resolveSmall popSmall (by decide)
    ⟨"EU", 2022, 152000000⟩ (by decide)

theorem rowCell_fillZero : ∀ (cols : List String) (cells : List (Option Int))
    (y : String), y ∈ cols → cols.length ≤ cells.length →
    rowCell cols (cells.map (fun o => some (o.getD 0))) y =
      some ((rowCell cols cells y).getD 0) := by
  intro cols
  induction cols with
  | nil => intro cells y hy _; simp at hy
  | cons c cs ih =>
    intro cells y hy hlen
    cases cells with
    | nil => simp at hlen
    | cons v vs =>
      by_cases hcy : c = y
      · simp only [List.map_cons, rowCell, if_pos hcy]
      · simp only [List.map_cons, rowCell, if_neg hcy]
        rcases List.mem_cons.mp hy with rfl | hy2
        · exact absurd rfl hcy
        · exact ih vs y hy2 (by simpa using hlen)

theorem continentsOf_fillZero (resolve : String → Option String)
    (pop : PopTable) :
    continentsOf resolve (fillZeroTable pop) = continentsOf resolve pop := by
  unfold continentsOf fillZeroTable
  rw [List.map_map]
  rfl

theorem meltLong_fillZero (resolve : String → Option String) (pop : PopTable)
    (hshape : ∀ r ∈ pop.rows, pop.otherCols.length ≤ r.cells.length) :
    meltLong resolve (fillZeroTable pop) =
      (meltLong resolve pop).map
        (fun e => (e.1, e.2.1, some (e.2.2.getD 0))) := by
  unfold meltLong
  rw [List.map_flatMap]
  have hvv : value_vars (fillZeroTable pop) = value_vars pop := rfl
  rw [hvv]
  apply List.flatMap_congr
  intro y hy
  rw [continentsOf_fillZero]
  have hrows : (fillZeroTable pop).rows = pop.rows.map
      (fun r => PopRow.mk r.country
        (r.cells.map (fun o => some (o.getD 0)))) := rfl
  have hcols : (fillZeroTable pop).otherCols = pop.otherCols := rfl
  rw [hrows, hcols, List.zip_map_left, List.map_map, List.map_map]
  apply List.map_congr_left
  intro rc hrc
  obtain ⟨r1, c1⟩ := rc
  have hr1 : r1 ∈ pop.rows := (List.of_mem_zip hrc).1
  have hycol : y ∈ pop.otherCols := (List.mem_filter.mp hy).1
  have hcell := rowCell_fillZero pop.otherCols r1.cells y hycol (hshape r1 hr1)
  simp [hcell]

theorem sumCells_map_some_getD (l : List (Option Int)) :
    sumCells (l.map (fun o => some (o.getD 0))) = sumCells l := by
  rw [sumCells_eq_map_getD, sumCells_eq_map_getD, List.map_map]
  rfl

theorem groupKeys_map_some_getD
    (long : List (Option String × String × Option Int)) :
    groupKeys (long.map (fun e => (e.1, e.2.1, some (e.2.2.getD 0)))) =
      groupKeys long := by
  unfold groupKeys
  rw [List.filterMap_map]
  rfl

theorem groupSum_map_some_getD
    (long : List (Option String × String × Option Int))
    (k : String × String) :
    groupSum (long.map (fun e => (e.1, e.2.1, some (e.2.2.getD 0)))) k =
      groupSum long k := by
  unfold groupSum
  rw [List.filterMap_map]
  have hfun : ((fun e : Option String × String × Option Int =>
      if e.1 = some k.1 ∧ e.2.1 = k.2 then some e.2.2 else none) ∘
        (fun e : Option String × String × Option Int =>
          (e.1, e.2.1, some (e.2.2.getD 0)))) =
      fun e => ((if e.1 = some k.1 ∧ e.2.1 = k.2 then some e.2.2
        else none).map (fun o => some (o.getD 0))) := by
    funext e
    by_cases h : e.1 = some k.1 ∧ e.2.1 = k.2
    · simp only [Function.comp_apply, if_pos h, Option.map_some']
    · simp only [Function.comp_apply, if_neg h, Option.map_none']
  rw [hfun, ← List.map_filterMap]
  exact sumCells_map_some_getD _

/-- C10: a null population cell contributes exactly 0 to its continent and
year total: replacing every null cell by an explicit 0 leaves the final
time-series data unchanged, and the skipna group sum equals the sum that
counts missing values as 0 (every total is a defined integer). -/
theorem groupby_sum_skips_null (resolve : String → Option String)
    (pop : PopTable)
    (hshape : ∀ r ∈ pop.rows, pop.otherCols.length ≤ r.cells.length) :
    (create_time_series_plot resolve (fillZeroTable pop)).2 =
        (create_time_series_plot resolve pop).2 ∧
      ∀ l : List (Option Int),
        sumCells l = (l.map (fun o => o.getD 0)).sum := by
  refine ⟨?_, sumCells_eq_map_getD⟩
  show continent_ts resolve (fillZeroTable pop) = continent_ts resolve pop
  unfold continent_ts
  rw [meltLong_fillZero resolve pop hshape, groupKeys_map_some_getD]
  apply List.map_congr_left
  intro k _
  rw [groupSum_map_some_getD]

/-- C10 witness: the concrete table with a null 1960 cell for Germany
yields the same chart data as the same table with that cell set to 0. -/
theorem groupby_sum_skips_null_witness :
    (create_time_series_plot resolveSmall (fillZeroTable popSmall)).2 =
        (create_time_series_plot resolveSmall popSmall).2 ∧
      ∀ l : List (Option Int),
        sumCells l = (l.map (fun o => o.getD 0)).sum :=
  groupby_sum_skips_null resolveSmall popSmall (by decide)
